import Mathlib

/-!
Verification of `src/boxing_timer.py`, a command-line boxing round timer.

The program is embedded shallowly:

* `TimerConfig` mirrors the `TimerConfig` dataclass; Python integers are
  modelled as `Int`.
* Terminal output and sleeping are modelled as an explicit trace of
  `OutEvent`s: `_countdown` returns the list of writes and sleeps the Python
  function performs (the `flush` calls produce no observable data and are
  omitted).
* Python's `range(a, b)` and `range(s, -1, -1)` are modelled with `List.range`.
* Python truthiness of an integer (`if config.warmup_seconds:`) is `≠ 0`.
* `argparse`'s `parser.error` prints the message to stderr and exits the
  process with status 2; `parse_args` is modelled as returning
  `Except String TimerConfig` and `main` turns the error case into a
  `ProcResult` with exit code 2, an error-stream message and no stdout output.
* A `KeyboardInterrupt` may arrive at any point of the driver loop; it is
  modelled by a cut position `k` into the uninterrupted event trace: the
  events actually performed are the first `k` events, after which control
  jumps to the `except KeyboardInterrupt` handler of `run_timer`.
-/

namespace BoxingTimer

/-- One observable action on the process's standard output / clock. -/
inductive OutEvent where
  | write : String → OutEvent
  | sleep : Nat → OutEvent
  deriving DecidableEq, Repr

/-- The `TimerConfig` dataclass of the source. -/
structure TimerConfig where
  rounds : Int
  round_seconds : Int
  rest_seconds : Int
  warmup_seconds : Int
  bell : Bool
  deriving DecidableEq, Repr

/-- Python's `f"{n:02d}"`: decimal rendering left-padded with zeros to a
minimum width of two characters.  (All call sites pass non-negative values.) -/
def format02d (n : Int) : String :=
  let s := toString n
  if s.length < 2 then String.mk (List.replicate (2 - s.length) '0') ++ s else s

/-- `_format_time` of the source: `divmod(seconds, 60)` (Python floor
division/modulus, i.e. `Int.fdiv`/`Int.fmod`) rendered as `MM:SS`. -/
def _format_time (seconds : Int) : String :=
  format02d (Int.fdiv seconds 60) ++ ":" ++ format02d (Int.fmod seconds 60)

/-- `_play_bell` of the source: writes the terminal bell character `"\a"`
(U+0007) when enabled. -/
def _play_bell (enabled : Bool) : List OutEvent :=
  if enabled then [OutEvent.write "\x07"] else []

/-- Python's `range(seconds, -1, -1)`: the integers from `seconds` down to 0,
empty when `seconds < 0`. -/
def descRange (seconds : Int) : List Int :=
  ((List.range (seconds + 1).toNat).reverse).map (fun k => (k : Int))

/-- The status line written for a given remaining time (the argument of the
`sys.stdout.write` inside `_countdown`'s loop). -/
def statusLine (label : String) (remaining : Int) : String :=
  "\x0D" ++ label ++ ": " ++ _format_time remaining ++ "   "

/-- `_countdown` of the source, as its trace of writes and sleeps: for each
`remaining` in `range(seconds, -1, -1)` a status-line write, followed by a
one-second sleep when `remaining > 0`; then a newline write and the bell. -/
def _countdown (label : String) (seconds : Int) (bell : Bool) : List OutEvent :=
  ((descRange seconds).map (fun remaining =>
      OutEvent.write (statusLine label remaining) ::
        (if 0 < remaining then [OutEvent.sleep 1] else []))).flatten
    ++ [OutEvent.write "\n"] ++ _play_bell bell

/-- `_round_intervals` of the source, materialized as a list: an optional
warmup interval, then for each `round_number` in `range(1, rounds + 1)` a
round interval followed by a rest interval unless it is the last round or
`rest_seconds` is falsy. -/
def _round_intervals (config : TimerConfig) : List (String × Int) :=
  (if config.warmup_seconds ≠ 0 then [("Warmup", config.warmup_seconds)] else [])
    ++ ((List.range config.rounds.toNat).map (fun (k : Nat) =>
        ("Round " ++ toString ((k : Int) + 1) ++ "/" ++ toString config.rounds,
          config.round_seconds) ::
          (if (k : Int) + 1 ≠ config.rounds ∧ config.rest_seconds ≠ 0 then
            [("Rest", config.rest_seconds)] else []))).flatten

/-- The trace of an uninterrupted `run_timer` call: the concatenation of the
countdown traces of all produced intervals. -/
def fullTrace (config : TimerConfig) : List OutEvent :=
  ((_round_intervals config).map (fun li => _countdown li.1 li.2 config.bell)).flatten

/-- `run_timer` of the source.  `interruptAfter = none` is an uninterrupted
run; `interruptAfter = some k` is a `KeyboardInterrupt` delivered after the
first `k` atomic output/sleep events, upon which the `except` handler writes
`"\nTimer stopped.\n"`. -/
def run_timer (config : TimerConfig) (interruptAfter : Option Nat) : List OutEvent :=
  match interruptAfter with
  | none => fullTrace config
  | some k => (fullTrace config).take k ++ [OutEvent.write "\nTimer stopped.\n"]

/-- `parse_args` of the source, after `argparse` has produced the integer
values: `parser.error` is modelled as `Except.error` with the message the
source passes. -/
def parse_args (rounds round_seconds rest_seconds warmup_seconds : Int)
    (no_bell : Bool) : Except String TimerConfig :=
  if rounds < 1 then Except.error "--rounds must be at least 1"
  else if round_seconds < 0 then Except.error "--round-seconds cannot be negative"
  else if rest_seconds < 0 then Except.error "--rest-seconds cannot be negative"
  else if warmup_seconds < 0 then Except.error "--warmup-seconds cannot be negative"
  else Except.ok
    { rounds := rounds, round_seconds := round_seconds, rest_seconds := rest_seconds,
      warmup_seconds := warmup_seconds, bell := !no_bell }

/-- Observable result of one process run: stdout trace, optional error-stream
message, exit status. -/
structure ProcResult where
  stdoutEvents : List OutEvent
  stderrMsg : Option String
  exitCode : Nat
  deriving DecidableEq, Repr

/-- `main` of the source: parse and validate the arguments, then run the
timer.  `parser.error` exits the process with status 2 after printing to the
error stream; a successful or interrupted run returns 0. -/
def main (rounds round_seconds rest_seconds warmup_seconds : Int)
    (no_bell : Bool) (interruptAfter : Option Nat) : ProcResult :=
  match parse_args rounds round_seconds rest_seconds warmup_seconds no_bell with
  | Except.error msg => ⟨[], some msg, 2⟩
  | Except.ok config => ⟨run_timer config interruptAfter, none, 0⟩

/-! ### Specification-side definitions

These follow the wording of the design document and are compared against the
definitions translated from the source above. -/

/-- A natural number zero-padded on the left to two digits, as the spec words
it for the minutes and seconds fields. -/
def pad2 (n : Nat) : String :=
  if n < 10 then "0" ++ toString n else toString n

/-- The spec reading of the time format: minutes `= s / 60` and seconds
`= s % 60`, each zero-padded to two digits, separated by a colon. -/
def formatTimeSpec (s : Nat) : String :=
  pad2 (s / 60) ++ ":" ++ pad2 (s % 60)

/-! ### Bridging lemmas between Python integers and naturals -/

theorem fdiv_ofNat_sixty (n : Nat) :
    Int.fdiv (Int.ofNat n) 60 = Int.ofNat (n / 60) := by
  cases n <;> rfl

theorem fmod_ofNat_sixty (n : Nat) :
    Int.fmod (Int.ofNat n) 60 = Int.ofNat (n % 60) := by
  cases n <;> rfl

theorem toString_int_ofNat (n : Nat) : toString (Int.ofNat n) = toString n := rfl

/-- Lower bound: `Nat.toDigitsCore` never shrinks its accumulator. -/
theorem toDigitsCore_len_le (b : Nat) :
    ∀ (f n : Nat) (l : List Char), l.length ≤ (Nat.toDigitsCore b f n l).length := by
  intro f
  induction f with
  | zero => intro n l; simp [Nat.toDigitsCore]
  | succ f ih =>
    intro n l
    simp only [Nat.toDigitsCore]
    split
    · simp
    · exact le_trans (by simp) (ih _ _)

/-- With positive fuel, `Nat.toDigitsCore` pushes at least one character. -/
theorem toDigitsCore_len_lt (b f n : Nat) (l : List Char) (hf : 0 < f) :
    l.length + 1 ≤ (Nat.toDigitsCore b f n l).length := by
  cases f with
  | zero => omega
  | succ f =>
    simp only [Nat.toDigitsCore]
    split
    · simp
    · exact le_trans (by simp) (toDigitsCore_len_le b f _ _)

/-- A natural of at least two decimal digits has a decimal rendering of at
least two characters. -/
theorem two_le_repr_length (n : Nat) (h : 10 ≤ n) : 2 ≤ (Nat.repr n).length := by
  have hdiv : n / 10 ≠ 0 := by
    have : 1 ≤ n / 10 := (Nat.one_le_div_iff (by norm_num)).mpr h
    omega
  have hfuel : 0 < n := by omega
  show 2 ≤ (Nat.toDigits 10 n).asString.length
  have hlen : (Nat.toDigits 10 n).asString.length = (Nat.toDigits 10 n).length := rfl
  rw [hlen]
  show 2 ≤ (Nat.toDigitsCore 10 (n + 1) n []).length
  simp only [Nat.toDigitsCore, hdiv, if_false]
  exact toDigitsCore_len_lt 10 n (n / 10) [(n % 10).digitChar] hfuel

/-- The Python 02d formatting of a natural agrees with the spec-side
two-digit zero padding. -/
theorem format02d_ofNat (n : Nat) : format02d (Int.ofNat n) = pad2 n := by
  by_cases h : n < 10
  · interval_cases n <;> rfl
  · have h2 : 2 ≤ (Nat.repr n).length := two_le_repr_length n (by omega)
    have hts : toString (Int.ofNat n) = Nat.repr n := rfl
    unfold format02d pad2
    rw [hts]
    rw [if_neg (by omega), if_neg (by omega)]
    rfl

/-- The interval sequence exactly as §4.1 of the spec words it: an optional
warmup when `warmup_seconds > 0`, then rounds 1..rounds, each followed by a
rest interval when it is not the last round and `rest_seconds > 0`. -/
def specIntervals (rounds round_seconds rest_seconds warmup_seconds : Int) :
    List (String × Int) :=
  (if 0 < warmup_seconds then [("Warmup", warmup_seconds)] else [])
    ++ ((List.range rounds.toNat).map (fun (k : Nat) =>
        ("Round " ++ toString ((k : Int) + 1) ++ "/" ++ toString rounds,
          round_seconds) ::
          (if (k : Int) + 1 < rounds ∧ 0 < rest_seconds then
            [("Rest", rest_seconds)] else []))).flatten

/-- On valid configurations the source producer agrees with the sequence as
the spec words it. -/
theorem round_intervals_eq_spec (c : TimerConfig) (h1 : 1 ≤ c.rounds)
    (h3 : 0 ≤ c.rest_seconds) (h4 : 0 ≤ c.warmup_seconds) :
    _round_intervals c
      = specIntervals c.rounds c.round_seconds c.rest_seconds c.warmup_seconds := by
  unfold _round_intervals specIntervals
  have hw : (c.warmup_seconds ≠ 0) ↔ (0 < c.warmup_seconds) := by omega
  congr 1
  · exact if_congr hw rfl rfl
  · congr 1
    apply List.map_congr_left
    intro k hk
    have hk2 : k < c.rounds.toNat := List.mem_range.mp hk
    congr 1
    refine if_congr ?_ rfl rfl
    constructor
    · rintro ⟨ha, hb⟩; exact ⟨by omega, by omega⟩
    · rintro ⟨ha, hb⟩; exact ⟨by omega, by omega⟩

/-- Decomposition of the produced sequence for `rounds ≥ 1`: warmup, then a
uniform block (round plus optional rest) for each round but the last, then
the final round with no trailing rest. -/
theorem round_intervals_decomp (c : TimerConfig) (h1 : 1 ≤ c.rounds) :
    _round_intervals c =
      (if c.warmup_seconds ≠ 0 then [("Warmup", c.warmup_seconds)] else [])
        ++ ((List.range (c.rounds.toNat - 1)).map (fun (k : Nat) =>
            ("Round " ++ toString ((k : Int) + 1) ++ "/" ++ toString c.rounds,
              c.round_seconds) ::
              (if c.rest_seconds ≠ 0 then [("Rest", c.rest_seconds)] else []))).flatten
        ++ [("Round " ++ toString c.rounds ++ "/" ++ toString c.rounds,
              c.round_seconds)] := by
  unfold _round_intervals
  rw [List.append_assoc]
  congr 1
  obtain ⟨m, hm⟩ : ∃ m, c.rounds.toNat = m + 1 := ⟨c.rounds.toNat - 1, by omega⟩
  have hm2 : c.rounds.toNat - 1 = m := by omega
  have hlast : ((m : Int) + 1) = c.rounds := by omega
  rw [hm2, hm, List.range_succ, List.map_append, List.flatten_append]
  congr 1
  · apply congrArg
    apply List.map_congr_left
    intro k hk
    have hk2 : k < m := List.mem_range.mp hk
    have hne : ((k : Int) + 1) ≠ c.rounds := by omega
    congr 1
    simp [hne]
  · simp only [List.map_cons, List.map_nil, List.flatten_cons, List.flatten_nil,
      List.append_nil]
    have hcond : ¬(((m : Int) + 1) ≠ c.rounds ∧ c.rest_seconds ≠ 0) := by
      intro hc; exact hc.1 hlast
    rw [if_neg hcond, hlast]

/-- Sum of a constant-valued map over a range, `Nat` version. -/
theorem sum_map_range_constNat (c : Nat) :
    ∀ n : Nat, ((List.range n).map (fun _ => c)).sum = n * c := by
  intro n
  induction n with
  | zero => simp
  | succ n ih =>
    rw [List.range_succ, List.map_append, List.sum_append]
    simp [ih, Nat.succ_mul]

/-- Sum of a constant-valued map over a range, `Int` version. -/
theorem sum_map_range_constInt (v : Int) :
    ∀ n : Nat, ((List.range n).map (fun _ => v)).sum = (n : Int) * v := by
  intro n
  induction n with
  | zero => simp
  | succ n ih =>
    rw [List.range_succ, List.map_append, List.sum_append]
    simp [ih]
    ring

/-- Closed form for the number of produced intervals on a valid
configuration. -/
theorem length_round_intervals (c : TimerConfig) (h1 : 1 ≤ c.rounds)
    (h3 : 0 ≤ c.rest_seconds) (h4 : 0 ≤ c.warmup_seconds) :
    ((_round_intervals c).length : Int) =
      (if 0 < c.warmup_seconds then 1 else 0) + c.rounds
        + (if 0 < c.rest_seconds then c.rounds - 1 else 0) := by
  rw [round_intervals_decomp c h1, List.length_append, List.length_append,
    List.length_flatten, List.map_map]
  have hmap : List.map (List.length ∘ (fun (k : Nat) =>
      ("Round " ++ toString ((k : Int) + 1) ++ "/" ++ toString c.rounds,
        c.round_seconds) ::
        (if c.rest_seconds ≠ 0 then [("Rest", c.rest_seconds)] else [])))
      (List.range (c.rounds.toNat - 1))
      = List.map (fun _ => 1 + if c.rest_seconds ≠ 0 then 1 else 0)
        (List.range (c.rounds.toNat - 1)) := by
    apply List.map_congr_left
    intro k _
    simp only [Function.comp_apply, List.length_cons]
    split <;> simp
  rw [hmap, sum_map_range_constNat]
  split_ifs <;>
    (simp only [List.length_singleton, List.length_nil]; push_cast; omega)

/-- Closed form for the total duration of the produced intervals when
`rounds ≥ 1`: the conditional skipping of zero-duration warmup and rest
intervals never changes the sum. -/
theorem sum_round_durations (c : TimerConfig) (h1 : 1 ≤ c.rounds) :
    ((_round_intervals c).map Prod.snd).sum =
      c.warmup_seconds + c.rounds * c.round_seconds
        + (c.rounds - 1) * c.rest_seconds := by
  rw [round_intervals_decomp c h1, List.map_append, List.map_append,
    List.sum_append, List.sum_append, List.map_flatten, List.map_map,
    List.sum_flatten, List.map_map]
  have hmap : List.map (List.sum ∘ List.map Prod.snd ∘ (fun (k : Nat) =>
      ("Round " ++ toString ((k : Int) + 1) ++ "/" ++ toString c.rounds,
        c.round_seconds) ::
        (if c.rest_seconds ≠ 0 then [("Rest", c.rest_seconds)] else [])))
      (List.range (c.rounds.toNat - 1))
      = List.map (fun _ => c.round_seconds
          + if c.rest_seconds ≠ 0 then c.rest_seconds else 0)
        (List.range (c.rounds.toNat - 1)) := by
    apply List.map_congr_left
    intro k _
    simp only [Function.comp_apply, List.map_cons, List.sum_cons]
    split <;> simp
  rw [hmap, sum_map_range_constInt]
  have hcast : ((c.rounds.toNat - 1 : Nat) : Int) = c.rounds - 1 := by omega
  rw [hcast]
  by_cases hw : c.warmup_seconds ≠ 0 <;> by_cases hr : c.rest_seconds ≠ 0
  · rw [if_pos hw, if_pos hr]; simp; ring
  · rw [if_pos hw, if_neg hr, show c.rest_seconds = 0 by omega]; simp; ring
  · rw [if_neg hw, if_pos hr, show c.warmup_seconds = 0 by omega]; simp; ring
  · rw [if_neg hw, if_neg hr, show c.rest_seconds = 0 by omega,
      show c.warmup_seconds = 0 by omega]
    simp; ring

/-- C1: for every valid configuration (rounds ≥ 1, all durations ≥ 0) the
number of intervals produced by `_round_intervals` equals
(1 if warmup_seconds > 0 else 0) + rounds + (rounds - 1 if rest_seconds > 0
else 0). -/
theorem claim_producer_count (c : TimerConfig) (h1 : 1 ≤ c.rounds)
    (h2 : 0 ≤ c.round_seconds) (h3 : 0 ≤ c.rest_seconds)
    (h4 : 0 ≤ c.warmup_seconds) :
    ((_round_intervals c).length : Int) =
      (if 0 < c.warmup_seconds then 1 else 0) + c.rounds
        + (if 0 < c.rest_seconds then c.rounds - 1 else 0) :=
  length_round_intervals c h1 h3 h4

theorem claim_producer_count_witness :
    ((_round_intervals ⟨3, 180, 60, 10, true⟩).length : Int) =
      (if (0 : Int) < 10 then 1 else 0) + 3 + (if (0 : Int) < 60 then 3 - 1 else 0) :=
  claim_producer_count ⟨3, 180, 60, 10, true⟩ (by decide) (by decide) (by decide)
    (by decide)

/-- C2: on every valid configuration the producer emits exactly the labels,
durations and order that §4.1 of the spec lists (`specIntervals`); in
particular rounds=2, round_seconds=5, rest_seconds=3, warmup_seconds=2
yields Warmup, Round 1/2, Rest, Round 2/2 with no trailing rest. -/
theorem claim_producer_order (c : TimerConfig) (h1 : 1 ≤ c.rounds)
    (h2 : 0 ≤ c.round_seconds) (h3 : 0 ≤ c.rest_seconds)
    (h4 : 0 ≤ c.warmup_seconds) :
    _round_intervals c
        = specIntervals c.rounds c.round_seconds c.rest_seconds c.warmup_seconds ∧
    _round_intervals ⟨2, 5, 3, 2, true⟩ =
      [("Warmup", 2), ("Round 1/2", 5), ("Rest", 3), ("Round 2/2", 5)] :=
  ⟨round_intervals_eq_spec c h1 h3 h4, by decide⟩

theorem claim_producer_order_witness :
    _round_intervals ⟨2, 5, 3, 2, true⟩ = specIntervals 2 5 3 2 ∧
    _round_intervals ⟨2, 5, 3, 2, true⟩ =
      [("Warmup", 2), ("Round 1/2", 5), ("Rest", 3), ("Round 2/2", 5)] :=
  claim_producer_order ⟨2, 5, 3, 2, true⟩ (by decide) (by decide) (by decide)
    (by decide)

/-- C7: the all-zero-duration single-round configuration produces exactly one
interval ("Round 1/1", 0); more generally, a zero round duration does not
change how many intervals are emitted — zero-duration rounds are still
produced. -/
theorem claim_zero_duration_emitted :
    (∀ b : Bool, _round_intervals ⟨1, 0, 0, 0, b⟩ = [("Round 1/1", 0)]) ∧
    (∀ c : TimerConfig, 1 ≤ c.rounds → 0 ≤ c.rest_seconds →
      0 ≤ c.warmup_seconds → c.round_seconds = 0 →
      ((_round_intervals c).length : Int) =
        (if 0 < c.warmup_seconds then 1 else 0) + c.rounds
          + (if 0 < c.rest_seconds then c.rounds - 1 else 0)) := by
  constructor
  · intro b; rfl
  · intro c h1 h3 h4 _
    exact length_round_intervals c h1 h3 h4

theorem claim_zero_duration_emitted_witness :
    _round_intervals ⟨1, 0, 0, 0, true⟩ = [("Round 1/1", 0)] ∧
    ((_round_intervals ⟨1, 0, 0, 0, true⟩).length : Int) =
      (if (0 : Int) < 0 then 1 else 0) + 1 + (if (0 : Int) < 0 then 1 - 1 else 0) :=
  ⟨claim_zero_duration_emitted.1 true,
    claim_zero_duration_emitted.2 ⟨1, 0, 0, 0, true⟩ (by decide) (by decide)
      (by decide) rfl⟩

/-- C9: the producer is a pure function of the configuration — two calls on
equal configurations give sequences of the same length with the same labels
and the same durations in the same order. -/
theorem claim_producer_deterministic (c₁ c₂ : TimerConfig) (h : c₁ = c₂) :
    _round_intervals c₁ = _round_intervals c₂ ∧
    (_round_intervals c₁).length = (_round_intervals c₂).length ∧
    (_round_intervals c₁).map Prod.fst = (_round_intervals c₂).map Prod.fst ∧
    (_round_intervals c₁).map Prod.snd = (_round_intervals c₂).map Prod.snd := by
  subst h
  exact ⟨rfl, rfl, rfl, rfl⟩

theorem claim_producer_deterministic_witness :
    _round_intervals ⟨3, 180, 60, 10, true⟩ = _round_intervals ⟨3, 180, 60, 10, true⟩ ∧
    (_round_intervals ⟨3, 180, 60, 10, true⟩).length
        = (_round_intervals ⟨3, 180, 60, 10, true⟩).length ∧
    (_round_intervals ⟨3, 180, 60, 10, true⟩).map Prod.fst
        = (_round_intervals ⟨3, 180, 60, 10, true⟩).map Prod.fst ∧
    (_round_intervals ⟨3, 180, 60, 10, true⟩).map Prod.snd
        = (_round_intervals ⟨3, 180, 60, 10, true⟩).map Prod.snd :=
  claim_producer_deterministic ⟨3, 180, 60, 10, true⟩ ⟨3, 180, 60, 10, true⟩ rfl

/-- C10: on every valid configuration the durations of the produced intervals
sum to warmup_seconds + rounds * round_seconds + (rounds - 1) * rest_seconds,
unconditionally. -/
theorem claim_total_duration (c : TimerConfig) (h1 : 1 ≤ c.rounds)
    (h2 : 0 ≤ c.round_seconds) (h3 : 0 ≤ c.rest_seconds)
    (h4 : 0 ≤ c.warmup_seconds) :
    ((_round_intervals c).map Prod.snd).sum =
      c.warmup_seconds + c.rounds * c.round_seconds
        + (c.rounds - 1) * c.rest_seconds :=
  sum_round_durations c h1

theorem claim_total_duration_witness :
    ((_round_intervals ⟨3, 180, 60, 10, true⟩).map Prod.snd).sum =
      10 + 3 * 180 + (3 - 1) * 60 :=
  claim_total_duration ⟨3, 180, 60, 10, true⟩ (by decide) (by decide) (by decide)
    (by decide)

/-- C6: the time formatter renders a non-negative number of seconds as
minutes:seconds, zero-padded to two digits, with minutes = s / 60 and
seconds = s % 60; in particular 0, 59, 60 and 125 render as stated. -/
theorem claim_time_format :
    (∀ s : Nat, _format_time (Int.ofNat s) = formatTimeSpec s) ∧
    _format_time 0 = "00:00" ∧ _format_time 59 = "00:59" ∧
    _format_time 60 = "01:00" ∧ _format_time 125 = "02:05" := by
  refine ⟨?_, rfl, rfl, rfl, rfl⟩
  intro s
  unfold _format_time formatTimeSpec
  rw [fdiv_ofNat_sixty, fmod_ofNat_sixty, format02d_ofNat, format02d_ofNat]

/-! ### Countdown renderer -/

/-- The countdown tick trace as §4.2 of the spec describes it: one status
update for each remaining time from D down to 0, with a one-second sleep
after every update whose remaining time is still positive and none after the
final (zero) update. -/
def tickTrace (label : String) : Nat → List OutEvent
  | 0 => [OutEvent.write (statusLine label 0)]
  | n + 1 => OutEvent.write (statusLine label (Int.ofNat (n + 1)))
      :: OutEvent.sleep 1 :: tickTrace label n

def isWrite : OutEvent → Bool
  | OutEvent.write _ => true
  | OutEvent.sleep _ => false

def isSleep : OutEvent → Bool
  | OutEvent.write _ => false
  | OutEvent.sleep _ => true

/-- Number of write events in a trace. -/
def countWrites (evs : List OutEvent) : Nat := (evs.filter isWrite).length

/-- Number of sleep events in a trace. -/
def countSleeps (evs : List OutEvent) : Nat := (evs.filter isSleep).length

theorem descRange_succ (D : Nat) :
    descRange (Int.ofNat (D + 1)) = Int.ofNat (D + 1) :: descRange (Int.ofNat D) := by
  unfold descRange
  have h1 : ((Int.ofNat (D + 1)) + 1).toNat = D + 2 := rfl
  have h2 : ((Int.ofNat D) + 1).toNat = D + 1 := rfl
  rw [h1, h2, List.range_succ, List.reverse_append]
  simp

theorem countdown_succ (label : String) (bell : Bool) (D : Nat) :
    _countdown label (Int.ofNat (D + 1)) bell
      = OutEvent.write (statusLine label (Int.ofNat (D + 1)))
          :: OutEvent.sleep 1 :: _countdown label (Int.ofNat D) bell := by
  unfold _countdown
  rw [descRange_succ, List.map_cons, List.flatten_cons]
  have hpos : (0 : Int) < Int.ofNat (D + 1) := by
    show (0 : Int) < ((D + 1 : Nat) : Int)
    exact_mod_cast Nat.succ_pos D
  rw [if_pos hpos]
  simp

/-- The source countdown trace is the spec tick trace followed by the final
newline and the optional bell. -/
theorem countdown_eq_tickTrace (label : String) (bell : Bool) :
    ∀ D : Nat, _countdown label (Int.ofNat D) bell
      = tickTrace label D ++ OutEvent.write "\n" :: _play_bell bell := by
  intro D
  induction D with
  | zero => rfl
  | succ n ih =>
    rw [countdown_succ, ih]
    rfl

theorem countWrites_tickTrace (label : String) :
    ∀ D : Nat, countWrites (tickTrace label D) = D + 1 := by
  intro D
  induction D with
  | zero => rfl
  | succ n ih =>
    unfold tickTrace countWrites
    rw [List.filter_cons, List.filter_cons]
    simp only [isWrite, isSleep, if_pos, if_neg, cond_true, cond_false]
    unfold countWrites at ih
    simp [ih]

theorem countSleeps_tickTrace (label : String) :
    ∀ D : Nat, countSleeps (tickTrace label D) = D := by
  intro D
  induction D with
  | zero => rfl
  | succ n ih =>
    unfold tickTrace countSleeps
    rw [List.filter_cons, List.filter_cons]
    simp only [isWrite, isSleep, cond_true, cond_false]
    unfold countSleeps at ih
    simp [ih]

theorem countSleeps_append (evs evs2 : List OutEvent) :
    countSleeps (evs ++ evs2) = countSleeps evs + countSleeps evs2 := by
  unfold countSleeps
  rw [List.filter_append, List.length_append]

/-- C3: for every label and duration D ≥ 0 the countdown renderer emits the
spec tick trace (updates from D down to 0 in order, sleeping exactly after
the positive updates) followed by the line terminator; it performs D + 1
status updates and D sleeps in total, and for D = 0 a single update showing
00:00 with no sleep. -/
theorem claim_countdown (label : String) (D : Nat) (bell : Bool) :
    _countdown label (Int.ofNat D) bell
        = tickTrace label D ++ OutEvent.write "\n" :: _play_bell bell ∧
    countWrites (tickTrace label D) = D + 1 ∧
    countSleeps (tickTrace label D) = D ∧
    countSleeps (_countdown label (Int.ofNat D) bell) = D ∧
    tickTrace label 0 = [OutEvent.write ("\x0D" ++ label ++ ": 00:00   ")] := by
  refine ⟨countdown_eq_tickTrace label bell D, countWrites_tickTrace label D,
    countSleeps_tickTrace label D, ?_, ?_⟩
  · rw [countdown_eq_tickTrace label bell D, countSleeps_append,
      countSleeps_tickTrace label D]
    cases bell <;> rfl
  · unfold tickTrace statusLine
    have hfmt : _format_time 0 = "00:00" := rfl
    rw [hfmt, String.append_assoc, String.append_assoc]
    rfl

/-! ### Completion signal -/

def isBellWrite : OutEvent → Bool
  | OutEvent.write s => s == "\x07"
  | OutEvent.sleep _ => false

/-- Number of terminal-bell writes in a trace. -/
def countBells (evs : List OutEvent) : Nat := (evs.filter isBellWrite).length

/-- A status line is never the bell character (it is strictly longer). -/
theorem statusLine_ne_bell (label : String) (r : Int) :
    statusLine label r ≠ "\x07" := by
  intro h
  have hl := congrArg String.length h
  rw [statusLine] at hl
  simp only [String.length_append, show ("\x0D").length = 1 from rfl,
    show (": ").length = 2 from rfl, show ("   ").length = 3 from rfl,
    show ("\x07").length = 1 from rfl] at hl
  omega

/-- A countdown trace contains the bell write exactly when the bell is
enabled. -/
theorem countBells_countdown (label : String) (s : Int) (bell : Bool) :
    countBells (_countdown label s bell) = if bell then 1 else 0 := by
  unfold _countdown countBells
  rw [List.filter_append, List.filter_append, List.length_append,
    List.length_append]
  have h1 : List.filter isBellWrite
      (((descRange s).map (fun remaining =>
        OutEvent.write (statusLine label remaining) ::
          (if 0 < remaining then [OutEvent.sleep 1] else []))).flatten) = [] := by
    rw [List.filter_eq_nil_iff]
    intro a ha
    obtain ⟨l2, hl2, hal⟩ := List.mem_flatten.mp ha
    obtain ⟨r, _, rfl⟩ := List.mem_map.mp hl2
    rcases List.mem_cons.mp hal with rfl | htail
    · simp [isBellWrite, statusLine_ne_bell label r]
    · split at htail
      · rcases List.mem_singleton.mp htail with rfl
        simp [isBellWrite]
      · simp at htail
  have h2 : List.filter isBellWrite [OutEvent.write "\n"] = [] := rfl
  rw [h1, h2]
  cases bell <;> rfl

/-- With the bell disabled in the configuration, no bell write appears in
any part of a session trace. -/
theorem countBells_session (l : List (String × Int)) :
    countBells ((l.map (fun li => _countdown li.1 li.2 false)).flatten) = 0 := by
  induction l with
  | nil => rfl
  | cons x xs ih =>
    rw [List.map_cons, List.flatten_cons]
    unfold countBells
    rw [List.filter_append, List.length_append]
    have hx := countBells_countdown x.1 x.2 false
    unfold countBells at hx ih
    rw [if_neg (by simp)] at hx
    omega

/-- C8: every countdown ends its status line with a newline write and then
emits the terminal bell exactly when the signal is enabled; parsing with the
no-bell flag set yields a configuration whose whole session trace contains
no bell write. -/
theorem claim_bell_signal (label : String) (s : Int) (bell : Bool) :
    _countdown label s true = _countdown label s false ++ [OutEvent.write "\x07"] ∧
    (_countdown label s false).getLast? = some (OutEvent.write "\n") ∧
    countBells (_countdown label s bell) = (if bell then 1 else 0) ∧
    (∀ r a b w : Int, ∀ cfg : TimerConfig,
      parse_args r a b w true = Except.ok cfg → countBells (fullTrace cfg) = 0) := by
  refine ⟨?_, ?_, countBells_countdown label s bell, ?_⟩
  · unfold _countdown _play_bell
    simp
  · unfold _countdown _play_bell
    rw [if_neg (by simp), List.append_nil]
    exact List.getLast?_concat _
  · intro r a b w cfg hok
    have hbell : cfg.bell = false := by
      unfold parse_args at hok
      split_ifs at hok
      cases hok
      rfl
    unfold fullTrace
    rw [hbell]
    exact countBells_session (_round_intervals cfg)

theorem claim_bell_signal_witness :
    countBells (fullTrace ⟨1, 0, 0, 0, false⟩) = 0 :=
  (claim_bell_signal "Rest" 1 true).2.2.2 1 0 0 0 ⟨1, 0, 0, 0, false⟩ rfl

/-- C4: argument validation rejects rounds < 1 and any negative duration,
with a non-zero exit status, a message on the error stream and nothing
written to stdout; it accepts every input with rounds ≥ 1 and all durations
≥ 0, which then runs with exit status 0 and no error output. -/
theorem claim_validation (r a b w : Int) (nb : Bool) (ia : Option Nat) :
    (¬(1 ≤ r ∧ 0 ≤ a ∧ 0 ≤ b ∧ 0 ≤ w) →
      (main r a b w nb ia).exitCode ≠ 0 ∧
      (main r a b w nb ia).stderrMsg.isSome = true ∧
      (main r a b w nb ia).stdoutEvents = []) ∧
    ((1 ≤ r ∧ 0 ≤ a ∧ 0 ≤ b ∧ 0 ≤ w) →
      parse_args r a b w nb = Except.ok ⟨r, a, b, w, !nb⟩ ∧
      (main r a b w nb ia).exitCode = 0 ∧
      (main r a b w nb ia).stderrMsg = none) := by
  constructor
  · intro hv
    unfold main parse_args
    split_ifs with h1 h2 h3 h4 <;>
      first
        | exact ⟨by simp, rfl, rfl⟩
        | (exfalso; omega)
  · intro hv
    unfold main parse_args
    split_ifs with h1 h2 h3 h4 <;>
      first
        | (exfalso; omega)
        | exact ⟨rfl, rfl, rfl⟩

theorem claim_validation_witness :
    ((main 0 180 60 10 false none).exitCode ≠ 0 ∧
      (main 0 180 60 10 false none).stderrMsg.isSome = true ∧
      (main 0 180 60 10 false none).stdoutEvents = []) ∧
    ((main 3 (-1) 60 10 false none).exitCode ≠ 0 ∧
      (main 3 (-1) 60 10 false none).stderrMsg.isSome = true ∧
      (main 3 (-1) 60 10 false none).stdoutEvents = []) ∧
    (parse_args 1 0 0 0 false = Except.ok ⟨1, 0, 0, 0, true⟩ ∧
      (main 1 0 0 0 false none).exitCode = 0 ∧
      (main 1 0 0 0 false none).stderrMsg = none) :=
  ⟨(claim_validation 0 180 60 10 false none).1 (by decide),
    (claim_validation 3 (-1) 60 10 false none).1 (by decide),
    (claim_validation 1 0 0 0 false none).2 (by decide)⟩

/-- C5: a user interrupt after any k events renders exactly the first k
events of the uninterrupted trace and nothing further — no later tick, no
later interval — then prints "Timer stopped." preceded by a newline, and a
run whose arguments parsed successfully exits with status 0. -/
theorem claim_cancellation (config : TimerConfig) (k : Nat)
    (r a b w : Int) (nb : Bool) (cfg : TimerConfig) :
    (run_timer config (some k)).dropLast = (fullTrace config).take k ∧
    (run_timer config (some k)).getLast?
        = some (OutEvent.write "\nTimer stopped.\n") ∧
    (parse_args r a b w nb = Except.ok cfg →
      (main r a b w nb (some k)).exitCode = 0 ∧
      (main r a b w nb (some k)).stdoutEvents = run_timer cfg (some k)) := by
  have hrt : run_timer config (some k)
      = (fullTrace config).take k ++ [OutEvent.write "\nTimer stopped.\n"] := rfl
  refine ⟨?_, ?_, ?_⟩
  · rw [hrt]
    exact List.dropLast_concat
  · rw [hrt]
    exact List.getLast?_concat _
  · intro hok
    unfold main
    rw [hok]
    exact ⟨rfl, rfl⟩

theorem claim_cancellation_witness :
    (run_timer ⟨2, 5, 3, 2, true⟩ (some 3)).dropLast
        = (fullTrace ⟨2, 5, 3, 2, true⟩).take 3 ∧
    (run_timer ⟨2, 5, 3, 2, true⟩ (some 3)).getLast?
        = some (OutEvent.write "\nTimer stopped.\n") ∧
    (main 1 0 0 0 false (some 3)).exitCode = 0 ∧
    (main 1 0 0 0 false (some 3)).stdoutEvents
        = run_timer ⟨1, 0, 0, 0, true⟩ (some 3) :=
  ⟨(claim_cancellation ⟨2, 5, 3, 2, true⟩ 3 1 0 0 0 false ⟨1, 0, 0, 0, true⟩).1,
    (claim_cancellation ⟨2, 5, 3, 2, true⟩ 3 1 0 0 0 false ⟨1, 0, 0, 0, true⟩).2.1,
    ((claim_cancellation ⟨2, 5, 3, 2, true⟩ 3 1 0 0 0 false ⟨1, 0, 0, 0, true⟩).2.2
      rfl).1,
    ((claim_cancellation ⟨2, 5, 3, 2, true⟩ 3 1 0 0 0 false ⟨1, 0, 0, 0, true⟩).2.2
      rfl).2⟩

end BoxingTimer
